import Mathlib

/-!
Verification of the core layouting module (`src/layout/mod.rs`).

The geometry and data-model primitives of the layout engine are embedded
shallowly: Rust structs become Lean structures, enums become inductives,
pure methods become Lean functions.  Sizes live in the companion size
module, which is not part of the excerpt; they are modelled from the
specification as exact rational lengths measured in points.
-/

namespace Typst

/-- Modelled from the spec: `Size` (from `src/size.rs`, not provided) is a
length measured in points; arithmetic on sizes is exact. -/
abbrev Size := ℚ

/-- Modelled from the spec: `Size::zero()`. -/
def Size.zero : Size := 0

/-- Modelled from the spec: `Size::to_pt` returns the length in points. -/
def Size.to_pt (s : Size) : ℚ := s

/-- Modelled from the spec: `Size2D` (from `src/size.rs`, not provided), a
two-dimensional size with `x` and `y` components. -/
structure Size2D where
  x : Size
  y : Size
  deriving DecidableEq, Repr

/-- Modelled from the spec: `Size2D::new(x, y)`. -/
def Size2D.new (x y : Size) : Size2D := ⟨x, y⟩

/-- Modelled from the spec: `SizeBox` (from `src/size.rs`, not provided), a
four-sided box of sizes used for padding. -/
structure SizeBox where
  left : Size
  top : Size
  right : Size
  bottom : Size
  deriving DecidableEq, Repr

/-- Modelled from the spec: `SizeBox::zero()`. -/
def SizeBox.zero : SizeBox := ⟨0, 0, 0, 0⟩

/-- Modelled from the spec: `Size2D::unpadded(padding)` (from `src/size.rs`,
not provided) subtracts the padding from the dimensions component-wise, each
dimension reduced by the padding on its two sides. -/
def Size2D.unpadded (s : Size2D) (padding : SizeBox) : Size2D :=
  ⟨s.x - padding.left - padding.right, s.y - padding.top - padding.bottom⟩

/-- Directions along which content is laid out (`Axis`). -/
inductive Axis where
  | LeftToRight
  | RightToLeft
  | TopToBottom
  | BottomToTop
  deriving DecidableEq, Repr

/-- Whether this is a horizontal axis (`Axis::is_horizontal`). -/
def Axis.is_horizontal : Axis → Bool
  | Axis.LeftToRight | Axis.RightToLeft => true
  | Axis.TopToBottom | Axis.BottomToTop => false

/-- Whether this axis points into the positive coordinate direction
(`Axis::is_positive`). -/
def Axis.is_positive : Axis → Bool
  | Axis.LeftToRight | Axis.TopToBottom => true
  | Axis.RightToLeft | Axis.BottomToTop => false

/-- The direction factor for this axis (`Axis::factor`). -/
def Axis.factor (a : Axis) : Int :=
  if a.is_positive then 1 else -1

/-- The axes along which the content is laid out (`LayoutAxes`). -/
structure LayoutAxes where
  primary : Axis
  secondary : Axis
  deriving DecidableEq, Repr

/-- The constructor `LayoutAxes::new`. -/
def LayoutAxes.new (primary secondary : Axis) : LayoutAxes :=
  ⟨primary, secondary⟩

/-- The generalized version of a `Size2D` dependent on the layouting axes
(`LayoutAxes::generalize`): identity when the primary axis is horizontal,
otherwise x and y are swapped. -/
def LayoutAxes.generalize (a : LayoutAxes) (size : Size2D) : Size2D :=
  if a.primary.is_horizontal then
    size
  else
    { x := size.y, y := size.x }

/-- The specialized version of a generalized `Size2D`
(`LayoutAxes::specialize`); the source delegates to `generalize`. -/
def LayoutAxes.specialize (a : LayoutAxes) (size : Size2D) : Size2D :=
  a.generalize size

/-- Where to align content (`Alignment`). -/
inductive Alignment where
  | Origin
  | Center
  | End
  deriving DecidableEq, Repr

/-- The place to put a layout in a container (`LayoutAlignment`). -/
structure LayoutAlignment where
  primary : Alignment
  secondary : Alignment
  deriving DecidableEq, Repr

/-- The constructor `LayoutAlignment::new`. -/
def LayoutAlignment.new (primary secondary : Alignment) : LayoutAlignment :=
  ⟨primary, secondary⟩

/-- The specialized anchor position for an item with the given alignment in a
container with a given size along the given axis (`anchor`). -/
def anchor (axis : Axis) (size : Size) (alignment : Alignment) : Size :=
  match axis.is_positive, alignment with
  | true, Alignment.Origin | false, Alignment.End => Size.zero
  | _, Alignment.Center => size / 2
  | true, Alignment.End | false, Alignment.Origin => size

/-- Spacial layouting constraints (`LayoutSpace`). -/
structure LayoutSpace where
  dimensions : Size2D
  expand : Bool × Bool
  padding : SizeBox
  deriving DecidableEq, Repr

/-- The offset from the origin to the start of content
(`LayoutSpace::start`); the body returns
`Size2D::new(padding.left, padding.right)`. -/
def LayoutSpace.start (s : LayoutSpace) : Size2D :=
  Size2D.new s.padding.left s.padding.right

/-- The actually usable area (`LayoutSpace::usable`). -/
def LayoutSpace.usable (s : LayoutSpace) : Size2D :=
  s.dimensions.unpadded s.padding

/-- A layout space without padding and dimensions reduced by the padding
(`LayoutSpace::usable_space`). -/
def LayoutSpace.usable_space (s : LayoutSpace) : LayoutSpace :=
  { dimensions := s.usable
    expand := (false, false)
    padding := SizeBox.zero }

/-- Whitespace between boxes with different interaction properties
(`SpacingKind`). -/
inductive SpacingKind where
  | Hard
  | Soft (priority : Nat)
  deriving DecidableEq, Repr

/-- The standard spacing kind used for paragraph spacing
(`PARAGRAPH_KIND`). -/
def PARAGRAPH_KIND : SpacingKind := SpacingKind.Soft 1

/-- The standard spacing kind used for normal spaces between boxes
(`SPACE_KIND`). -/
def SPACE_KIND : SpacingKind := SpacingKind.Soft 2

/-- The last appeared spacing (`LastSpacing`). -/
inductive LastSpacing where
  | Hard
  | Soft (space : Size) (priority : Nat)
  | None
  deriving DecidableEq, Repr

/-- The helper `LastSpacing::soft_or_zero`. -/
def LastSpacing.soft_or_zero : LastSpacing → Size
  | LastSpacing.Soft space _ => space
  | _ => Size.zero

/-- Modelled from the spec: the spacing-merge transition of section 4.3 on a
request to insert spacing of kind `kind` with resolved size `s`; the merge
implementation lives in the flex and stack layouters, which are not part of
the provided excerpt.  A pending hard space drops every new request; a
pending soft space is replaced by a new soft request exactly when the new
priority number is lower, and is replaced outright by a hard request; with
nothing pending the request is stored. -/
def spacingTransition (state : LastSpacing) (s : Size) (kind : SpacingKind) :
    LastSpacing :=
  match state, kind with
  | LastSpacing.Hard, _ => LastSpacing.Hard
  | LastSpacing.Soft s0 p0, SpacingKind.Soft p =>
      if p < p0 then LastSpacing.Soft s p else LastSpacing.Soft s0 p0
  | LastSpacing.Soft _ _, SpacingKind.Hard => LastSpacing.Hard
  | LastSpacing.None, SpacingKind.Soft p => LastSpacing.Soft s p
  | LastSpacing.None, SpacingKind.Hard => LastSpacing.Hard

/-- A sequence of layouting actions inside a box (`Layout`).  The concrete
action type lives in the actions submodule, which is not part of the
provided excerpt, so layouts are parametric in the action type. -/
structure Layout (α : Type) where
  dimensions : Size2D
  baseline : Option Size
  alignment : LayoutAlignment
  actions : List α

/-- A collection of layouts (`MultiLayout`). -/
abbrev MultiLayout (α : Type) := List (Layout α)

/-- The decimal representation of a `usize`, embedding the Rust
`Display`-formatting `{}` used by the serializers for the layout count and
the action count. -/
def usizeRepr (n : Nat) : List Char := Nat.toDigits 10 n

/-- Modelled from the spec: the `{:.4}` formatting of a point value to four
decimal places (the number type and its formatting live outside the provided
excerpt).  The value is scaled by 10000, rounded, and printed as an optional
sign, the integer digits, a dot, and exactly four fractional digits. -/
def fmt4 (q : ℚ) : List Char :=
  (if round (q * 10000) < 0 then ['-'] else [])
    ++ Nat.toDigits 10 ((round (q * 10000)).natAbs / 10000)
    ++ ['.']
    ++ List.replicate
        (4 - (Nat.toDigits 10 ((round (q * 10000)).natAbs % 10000)).length) '0'
    ++ Nat.toDigits 10 ((round (q * 10000)).natAbs % 10000)

/-- The impl `Serialize for Layout`: one line `"<width> <height>"` with both
coordinates converted to points, one line with the action count, then each
action serialized by the action serializer `fmtAction` followed by a
newline. -/
def Layout.serialize {α : Type} (fmtAction : α → List Char) (l : Layout α) :
    List Char :=
  fmt4 l.dimensions.x.to_pt ++ [' '] ++ fmt4 l.dimensions.y.to_pt ++ ['\n']
    ++ usizeRepr l.actions.length ++ ['\n']
    ++ (l.actions.map (fun a => fmtAction a ++ ['\n'])).flatten

/-- The impl `Serialize for MultiLayout`: one line with the layout count, then each
layout's serialization concatenated in order. -/
def MultiLayout.serialize {α : Type} (fmtAction : α → List Char)
    (ml : MultiLayout α) : List Char :=
  usizeRepr ml.length ++ ['\n'] ++ (ml.map (Layout.serialize fmtAction)).flatten

/-- Splits a character stream into its newline-terminated lines; the
accumulator holds the current line reversed. -/
def linesAux : List Char → List Char → List (List Char)
  | [], acc => if acc.isEmpty then [] else [acc.reverse]
  | c :: cs, acc =>
      if c = '\n' then acc.reverse :: linesAux cs [] else linesAux cs (c :: acc)

/-- The newline-terminated lines of a character stream. -/
def lines (s : List Char) : List (List Char) := linesAux s []

/-- A sequence of newline-terminated records. -/
def records (rs : List (List Char)) : List Char :=
  (rs.map (fun r => r ++ ['\n'])).flatten

/-- The lines a serialized `Layout` contributes: the dimension line, the
action-count line, and one line per action in the layout's action order. -/
def layoutLines {α : Type} (fmtAction : α → List Char) (l : Layout α) :
    List (List Char) :=
  (fmt4 l.dimensions.x.to_pt ++ [' '] ++ fmt4 l.dimensions.y.to_pt)
    :: usizeRepr l.actions.length
    :: l.actions.map fmtAction

theorem digitChar_not_newline (n : Nat) : Nat.digitChar n ≠ '\n' := by
  by_cases h : n < 16
  · interval_cases n <;> decide
  · have h0 : ¬ n = 0 := by omega
    have h1 : ¬ n = 1 := by omega
    have h2 : ¬ n = 2 := by omega
    have h3 : ¬ n = 3 := by omega
    have h4 : ¬ n = 4 := by omega
    have h5 : ¬ n = 5 := by omega
    have h6 : ¬ n = 6 := by omega
    have h7 : ¬ n = 7 := by omega
    have h8 : ¬ n = 8 := by omega
    have h9 : ¬ n = 9 := by omega
    have h10 : ¬ n = 10 := by omega
    have h11 : ¬ n = 11 := by omega
    have h12 : ¬ n = 12 := by omega
    have h13 : ¬ n = 13 := by omega
    have h14 : ¬ n = 14 := by omega
    have h15 : ¬ n = 15 := by omega
    unfold Nat.digitChar
    rw [if_neg h0, if_neg h1, if_neg h2, if_neg h3, if_neg h4, if_neg h5,
      if_neg h6, if_neg h7, if_neg h8, if_neg h9, if_neg h10, if_neg h11,
      if_neg h12, if_neg h13, if_neg h14, if_neg h15]
    decide

theorem toDigitsCore_not_newline (b : Nat) :
    ∀ (fuel n : Nat) (ds : List Char), '\n' ∉ ds →
      '\n' ∉ Nat.toDigitsCore b fuel n ds := by
  intro fuel
  induction fuel with
  | zero => intro n ds h; simpa [Nat.toDigitsCore] using h
  | succ f ih =>
    intro n ds h
    simp only [Nat.toDigitsCore]
    split
    · intro hm
      rcases List.mem_cons.mp hm with h1 | h1
      · exact digitChar_not_newline _ h1.symm
      · exact h h1
    · apply ih
      intro hm
      rcases List.mem_cons.mp hm with h1 | h1
      · exact digitChar_not_newline _ h1.symm
      · exact h h1

theorem toDigits_not_newline (b n : Nat) : '\n' ∉ Nat.toDigits b n :=
  toDigitsCore_not_newline b (n + 1) n [] (List.not_mem_nil _)

theorem usizeRepr_not_newline (n : Nat) : '\n' ∉ usizeRepr n :=
  toDigits_not_newline 10 n

theorem fmt4_not_newline (q : ℚ) : '\n' ∉ fmt4 q := by
  intro hm
  unfold fmt4 at hm
  simp only [List.mem_append] at hm
  rcases hm with ((((h | h) | h) | h) | h)
  · revert h
    split <;> intro h
    · exact absurd (List.mem_singleton.mp h) (by decide)
    · exact absurd h (List.not_mem_nil _)
  · exact toDigits_not_newline _ _ h
  · exact absurd (List.mem_singleton.mp h) (by decide)
  · exact absurd (List.eq_of_mem_replicate h) (by decide)
  · exact toDigits_not_newline _ _ h

theorem linesAux_line :
    ∀ (l t acc : List Char), '\n' ∉ l →
      linesAux (l ++ '\n' :: t) acc = (acc.reverse ++ l) :: linesAux t [] := by
  intro l
  induction l with
  | nil => intro t acc _; simp [linesAux]
  | cons c cs ih =>
    intro t acc h
    have hc : c ≠ '\n' := fun hc => h (by simp [hc])
    rw [List.cons_append]
    simp only [linesAux, hc, if_false]
    rw [ih t (c :: acc) (fun hm => h (List.mem_cons_of_mem _ hm))]
    simp

theorem lines_line (l t : List Char) (h : '\n' ∉ l) :
    lines (l ++ '\n' :: t) = l :: lines t := by
  simpa [lines] using linesAux_line l t [] h

theorem lines_records :
    ∀ (rs : List (List Char)) (t : List Char), (∀ r ∈ rs, '\n' ∉ r) →
      lines (records rs ++ t) = rs ++ lines t := by
  intro rs
  induction rs with
  | nil => intro t _; simp [records]
  | cons r rs ih =>
    intro t h
    have h1 : '\n' ∉ r := h r (by simp)
    have h2 : ∀ x ∈ rs, '\n' ∉ x := fun x hx => h x (by simp [hx])
    rw [show records (r :: rs) ++ t = r ++ '\n' :: (records rs ++ t) by
      simp [records]]
    rw [lines_line r _ h1, ih t h2]
    simp

theorem records_append (rs1 rs2 : List (List Char)) :
    records (rs1 ++ rs2) = records rs1 ++ records rs2 := by
  simp [records]

theorem serialize_eq_records {α : Type} (fmtAction : α → List Char)
    (l : Layout α) :
    Layout.serialize fmtAction l = records (layoutLines fmtAction l) := by
  simp [Layout.serialize, layoutLines, records, List.map_map, Function.comp]
  rfl

theorem multi_serialize_eq_records {α : Type} (fmtAction : α → List Char)
    (ml : MultiLayout α) :
    MultiLayout.serialize fmtAction ml
      = records (usizeRepr ml.length :: (ml.map (layoutLines fmtAction)).flatten) := by
  have hj : ∀ ms : MultiLayout α,
      (ms.map (Layout.serialize fmtAction)).flatten
        = records ((ms.map (layoutLines fmtAction)).flatten) := by
    intro ms
    induction ms with
    | nil => simp [records]
    | cons m ms ihm =>
      simp only [List.map_cons, List.flatten_cons, ihm, records_append,
        serialize_eq_records]
  rw [show records (usizeRepr ml.length :: (ml.map (layoutLines fmtAction)).flatten)
      = (usizeRepr ml.length ++ ['\n'])
        ++ records ((ml.map (layoutLines fmtAction)).flatten) by
    simp [records]]
  rw [MultiLayout.serialize, hj]

theorem layoutLines_not_newline {α : Type} (fmtAction : α → List Char)
    (h : ∀ a, '\n' ∉ fmtAction a) (l : Layout α) :
    ∀ r ∈ layoutLines fmtAction l, '\n' ∉ r := by
  intro r hr
  rcases List.mem_cons.mp hr with h1 | h1
  · subst h1
    intro hm
    simp only [List.mem_append] at hm
    rcases hm with (hm | hm) | hm
    · exact fmt4_not_newline _ hm
    · exact absurd (List.mem_singleton.mp hm) (by decide)
    · exact fmt4_not_newline _ hm
  · rcases List.mem_cons.mp h1 with h2 | h2
    · subst h2; exact usizeRepr_not_newline _
    · rcases List.mem_map.mp h2 with ⟨a, _, ha⟩
      subst ha; exact h a

theorem layoutLines_length {α : Type} (fmtAction : α → List Char)
    (l : Layout α) :
    (layoutLines fmtAction l).length = 2 + l.actions.length := by
  simp [layoutLines]; omega

/-- C3: `generalize` is an involution: for every `LayoutAxes` value `a` and
every `Size2D` `s`, `generalize(a, generalize(a, s)) = s`. -/
theorem generalize_involution (a : LayoutAxes) (s : Size2D) :
    a.generalize (a.generalize s) = s := by
  cases s
  unfold LayoutAxes.generalize
  by_cases h : a.primary.is_horizontal <;> simp [h]

/-- C8: `specialize` and `generalize` are the same function: for every
`LayoutAxes` value `a` and every `Size2D` `s`,
`specialize(a, s) = generalize(a, s)`. -/
theorem specialize_eq_generalize (a : LayoutAxes) (s : Size2D) :
    a.specialize s = a.generalize s := rfl

/-- C4: `anchor` boundary values: `anchor(axis, size, Origin)` is `0` for a
positive axis and `size` for a negative one, `anchor(axis, size, End)` is
`size` for a positive axis and `0` for a negative one, and
`anchor(axis, size, Center) = size / 2` regardless of direction. -/
theorem anchor_boundary (axis : Axis) (size : Size) :
    anchor axis size Alignment.Origin
        = (if axis.is_positive then Size.zero else size)
    ∧ anchor axis size Alignment.End
        = (if axis.is_positive then size else Size.zero)
    ∧ anchor axis size Alignment.Center = size / 2 := by
  cases axis <;> simp [anchor, Axis.is_positive]

/-- C9: the Origin and End anchors are complementary: for every axis and
every size, `anchor(axis, size, Origin) + anchor(axis, size, End) = size`. -/
theorem anchor_origin_add_end (axis : Axis) (size : Size) :
    anchor axis size Alignment.Origin + anchor axis size Alignment.End
      = size := by
  cases axis <;> simp [anchor, Axis.is_positive, Size.zero]

/-- C5: `usable()` equals the dimensions minus the padding component-wise
(each dimension reduced by the padding on its two sides), and
`usable_space()` has dimensions `usable()`, zero padding on all four sides,
and expand flags `(false, false)`. -/
theorem usable_usable_space (s : LayoutSpace) :
    s.usable
        = Size2D.new (s.dimensions.x - s.padding.left - s.padding.right)
            (s.dimensions.y - s.padding.top - s.padding.bottom)
    ∧ s.usable_space.dimensions = s.usable
    ∧ s.usable_space.padding = SizeBox.zero
    ∧ s.usable_space.expand = (false, false) := by
  refine ⟨rfl, rfl, rfl, rfl⟩

/-- C1: evaluation of `LayoutSpace::start` at the padding
`{left := 1, top := 2, right := 3, bottom := 4}`: the result is
`Size2D(1, 3)`, taking `padding.right` as the y component, while the claim
and the function's own documentation comment demand `Size2D(1, 2)` with
`padding.top` as the y component. -/
theorem start_uses_padding_right :
    (LayoutSpace.mk (Size2D.new 10 10) (false, false)
        (SizeBox.mk 1 2 3 4)).start = Size2D.new 1 3
    ∧ (SizeBox.mk 1 2 3 4).top = 2
    ∧ Size2D.new 1 3 ≠ Size2D.new 1 2 := by
  refine ⟨rfl, rfl, ?_⟩
  decide

/-- C7: the module-level spacing-kind constants: paragraph-break spacing is
`Soft(1)` and ordinary inter-word/inter-box spacing is `Soft(2)`; priority 1
is the stronger of the two, in that a paragraph request replaces a pending
ordinary soft space while an ordinary request never replaces a pending
paragraph space. -/
theorem spacing_kind_constants :
    PARAGRAPH_KIND = SpacingKind.Soft 1
    ∧ SPACE_KIND = SpacingKind.Soft 2
    ∧ (∀ (s0 s : Size),
        spacingTransition (LastSpacing.Soft s0 2) s PARAGRAPH_KIND
          = LastSpacing.Soft s 1)
    ∧ (∀ (s0 s : Size),
        spacingTransition (LastSpacing.Soft s0 1) s SPACE_KIND
          = LastSpacing.Soft s0 1) := by
  refine ⟨rfl, rfl, fun s0 s => rfl, fun s0 s => ?_⟩
  simp [spacingTransition, SPACE_KIND]

/-- C6: merging a new soft request into a pending soft space keeps the one
with the lower priority number: the pending value is replaced exactly when
the new priority is smaller; in particular pending `Soft(5, 2)` followed by
`Soft(3, 1)` flushes `3`, and pending `Soft(5, 1)` followed by `Soft(3, 2)`
flushes `5`. -/
theorem soft_merge_priority :
    (∀ (s0 : Size) (p0 : Nat) (s : Size) (p : Nat),
        spacingTransition (LastSpacing.Soft s0 p0) s (SpacingKind.Soft p)
          = if p < p0 then LastSpacing.Soft s p else LastSpacing.Soft s0 p0)
    ∧ (spacingTransition (LastSpacing.Soft 5 2) 3
          (SpacingKind.Soft 1)).soft_or_zero = 3
    ∧ (spacingTransition (LastSpacing.Soft 5 1) 3
          (SpacingKind.Soft 2)).soft_or_zero = 5 := by
  refine ⟨fun s0 p0 s p => rfl, rfl, rfl⟩

/-- C2: serializing a `MultiLayout` of `n` layouts, where layout `i` has
`k_i` actions, emits one line with the layout count followed, per layout, by
the dimension line `"<width> <height>"` in points, the action-count line,
and one line per action in the layout's action order — exactly
`1 + Σ (2 + k_i)` newline-terminated lines in total, provided the action
serializer emits no newline of its own. -/
theorem serialize_line_shape {α : Type} (fmtAction : α → List Char)
    (h : ∀ a, '\n' ∉ fmtAction a) (ml : MultiLayout α) :
    lines (MultiLayout.serialize fmtAction ml)
        = usizeRepr ml.length :: (ml.map (layoutLines fmtAction)).flatten
    ∧ (lines (MultiLayout.serialize fmtAction ml)).length
        = 1 + (ml.map (fun l => 2 + l.actions.length)).sum := by
  have hrs : ∀ r ∈ usizeRepr ml.length
      :: (ml.map (layoutLines fmtAction)).flatten, '\n' ∉ r := by
    intro r hr
    rcases List.mem_cons.mp hr with h1 | h1
    · subst h1; exact usizeRepr_not_newline _
    · rcases List.mem_flatten.mp h1 with ⟨rs, hrs, hr2⟩
      rcases List.mem_map.mp hrs with ⟨l, _, hl⟩
      subst hl
      exact layoutLines_not_newline fmtAction h l r hr2
  have h1 : lines (MultiLayout.serialize fmtAction ml)
      = usizeRepr ml.length :: (ml.map (layoutLines fmtAction)).flatten := by
    rw [multi_serialize_eq_records]
    have h2 := lines_records
      (usizeRepr ml.length :: (ml.map (layoutLines fmtAction)).flatten) [] hrs
    simpa [lines, linesAux] using h2
  refine ⟨h1, ?_⟩
  rw [h1]
  simp only [List.length_cons, List.length_flatten, List.map_map]
  have hm : ml.map (List.length ∘ layoutLines fmtAction)
      = ml.map (fun l => 2 + l.actions.length) :=
    List.map_congr_left
      (fun l _ => by simp [Function.comp, layoutLines_length fmtAction l])
  rw [hm]
  omega

/-- A concrete two-layout collection used to instantiate the serialization
theorems: the first layout has one action, the second none. -/
def demoMulti : MultiLayout Unit :=
  [Layout.mk (Size2D.new 1 2) Option.none
      (LayoutAlignment.new Alignment.Origin Alignment.Origin) [()],
    Layout.mk (Size2D.new 3 4) Option.none
      (LayoutAlignment.new Alignment.Origin Alignment.Origin) []]

/-- C2 witness: at the concrete two-layout collection `demoMulti` with a
newline-free action serializer, the serialization consists of
`1 + ((2 + 1) + (2 + 0)) = 6` newline-terminated lines. -/
theorem serialize_line_shape_witness :
    (∀ a : Unit, '\n' ∉ (fun _ : Unit => ['A']) a)
    ∧ (lines (MultiLayout.serialize (fun _ : Unit => ['A']) demoMulti)).length
        = 1 + (demoMulti.map (fun l => 2 + l.actions.length)).sum
    ∧ (demoMulti.map (fun l => 2 + l.actions.length)).sum = 5 :=
  ⟨by decide,
    (serialize_line_shape (fun _ : Unit => ['A']) (by decide) demoMulti).2,
    by decide⟩

/-- C10: `Layout` serialization is insensitive to the baseline and alignment
fields: two layouts with equal dimensions and equal action lists serialize
to byte-identical output regardless of their baselines and alignments. -/
theorem serialize_ignores_baseline_alignment {α : Type}
    (fmtAction : α → List Char) (l1 l2 : Layout α)
    (hd : l1.dimensions = l2.dimensions) (ha : l1.actions = l2.actions) :
    Layout.serialize fmtAction l1 = Layout.serialize fmtAction l2 := by
  simp [Layout.serialize, hd, ha]

/-- C10 witness: two concrete layouts that differ in baseline (none versus
`7`) and in alignment (origin/origin versus end/center) but share dimensions
and actions serialize to byte-identical output. -/
theorem serialize_ignores_baseline_alignment_witness :
    (Layout.mk (Size2D.new 1 2) Option.none
        (LayoutAlignment.new Alignment.Origin Alignment.Origin)
        [(), ()]).dimensions
      = (Layout.mk (Size2D.new 1 2) (Option.some 7)
        (LayoutAlignment.new Alignment.End Alignment.Center)
        [(), ()]).dimensions
    ∧ (Layout.mk (Size2D.new 1 2) Option.none
        (LayoutAlignment.new Alignment.Origin Alignment.Origin)
        [(), ()]).actions
      = (Layout.mk (Size2D.new 1 2) (Option.some 7)
        (LayoutAlignment.new Alignment.End Alignment.Center)
        [(), ()]).actions
    ∧ Layout.serialize (fun _ : Unit => ['A'])
        (Layout.mk (Size2D.new 1 2) Option.none
          (LayoutAlignment.new Alignment.Origin Alignment.Origin) [(), ()])
      = Layout.serialize (fun _ : Unit => ['A'])
        (Layout.mk (Size2D.new 1 2) (Option.some 7)
          (LayoutAlignment.new Alignment.End Alignment.Center) [(), ()]) :=
  ⟨rfl, rfl,
    serialize_ignores_baseline_alignment (fun _ : Unit => ['A']) _ _ rfl rfl⟩

end Typst
